import Mathlib

/-!
# Verification of the `status` TUI of `helper-git`

A shallow embedding, in Lean 4, of the interactive `status` subcommand of the
`helper-git` repository (Rust): the status classifier and file-list builder
(`src/status.rs`, lines 29–76), the diff renderer `show_file_diff`
(`src/status/diff.rs`), and the session loop's state machine — diff
memoization, key handling, scrolling, and the terminal enter/leave actions
(`src/status.rs`, lines 78–224).

External capabilities (libgit2 via the `git2` crate, the filesystem, the
terminal) are modelled as explicit environments: the repository supplies
status flags, file contents and a diff-line stream; the terminal supplies a
script of draw/read outcomes. Machine integers are modelled as `Nat` with the
`u16` saturation bounds made explicit where the source uses `u16` arithmetic.
-/

namespace HelperGit

/-- Colors used by the UI (`ratatui::style::Color` values appearing in the
source). `Option Color` on a styled line: `none` is an unstyled `Span::raw`. -/
inductive Color where
  | Red
  | Yellow
  | Green
  | Blue
  | DarkGray
deriving DecidableEq

/-- The display category label attached to a classified status entry
(`"New"`, `"Modified"`, `"Added"` in `src/status.rs` lines 45–55). -/
inductive Label where
  | New
  | Modified
  | Added
deriving DecidableEq

/-- The subset of `git2::Status` flags consulted or potentially present on a
status entry. Each field is one bit of the flag set. -/
structure StatusFlags where
  index_new : Bool
  index_modified : Bool
  index_deleted : Bool
  index_renamed : Bool
  index_typechange : Bool
  wt_new : Bool
  wt_modified : Bool
  wt_deleted : Bool
  wt_renamed : Bool
  wt_typechange : Bool
  ignored : Bool
  conflicted : Bool
deriving DecidableEq

/-- A raw status entry as yielded by `repo.statuses(...)`: `entry.path()` is
`None` when the path is not valid UTF-8, and `entry.status()` is the flag set. -/
structure StatusEntry where
  path : Option String
  status : StatusFlags
deriving DecidableEq

/-- Classification of one entry's flag set (`src/status.rs` lines 45–55):
the `match entry.status()` cascade with its guards, first match wins;
`None` is the `_ => continue` arm (the entry is skipped). -/
def classify (s : StatusFlags) : Option (Label × Color) :=
  if s.wt_new then some (Label.New, Color.Red)
  else if s.wt_modified then some (Label.Modified, Color.Yellow)
  else if s.index_new || s.wt_renamed || s.index_modified then
    some (Label.Added, Color.Green)
  else none

/-- The classified entries in enumeration order: the `for entry in
statuses.iter()` loop of `src/status.rs` lines 39–69, which pushes
`path` into `files` and a styled line into `items` in lockstep, skipping
entries with no path and entries whose status matches no arm. -/
def collectEntries : List StatusEntry → List (String × Label × Color)
  | [] => []
  | e :: rest =>
    match e.path with
    | none => collectEntries rest
    | some p =>
      match classify e.status with
      | none => collectEntries rest
      | some (l, c) => (p, l, c) :: collectEntries rest

/-- The `files` vector: bare paths used for diff lookups. -/
def filesOf (es : List StatusEntry) : List String :=
  (collectEntries es).map (·.1)

/-- One item of the left-panel list: either a classified entry rendered as
`label | path`, or the `"Working tree clean"` placeholder. -/
inductive Item where
  | entry (label : Label) (color : Color) (path : String)
  | clean
deriving DecidableEq

/-- The `items` vector after the loop and the emptiness check
(`src/status.rs` lines 71–73): the placeholder is pushed exactly when no
entry was classified. -/
def itemsOf (es : List StatusEntry) : List Item :=
  let xs := (collectEntries es).map (fun x => Item.entry x.2.1 x.2.2 x.1)
  if xs.isEmpty then [Item.clean] else xs

/-- A styled line of output as built by the source
(`ratatui::text::Line` holding one span): the text content together with the
foreground color of the span, `none` for an unstyled `Span::raw`. -/
structure StyledLine where
  content : String
  color : Option Color
deriving DecidableEq

/-- One line pushed by the diff engine's `print` callback
(`git2`): the origin marker character and the content bytes, where
`content = none` stands for bytes that are not valid UTF-8 (on which the
source's `std::str::from_utf8(...)` returns `Err` and `unwrap_or("")`
substitutes the empty string). -/
structure RawDiffLine where
  origin : Char
  content : Option String
deriving DecidableEq

/-- The repository/filesystem capability used by `show_file_diff`
(`src/status/diff.rs`): `status_file` is `repo.status_file(path)`;
`read_workdir` is `fs::read_to_string(repo.workdir().unwrap().join(path))`
keyed by the repository-relative path (it fails on I/O errors and on
non-UTF8 content); `diff_stream` is the sequence of lines the callback of
`diff.print(DiffFormat::Patch, ...)` receives for
`repo.diff_tree_to_workdir_with_index(tree, pathspec = path)`, in emission
order (an `error` models a failure of the diff construction or printing).
Errors are carried as their display strings (`anyhow::Error`). -/
structure GitEnv where
  status_file : String → Except String StatusFlags
  read_workdir : String → Except String String
  diff_stream : String → Except String (List RawDiffLine)

/-- Splitter for Rust's `str::lines()` (used by the source on the untracked
file's content): lines are separated by `\n`, a `\r` immediately before a
separator `\n` is stripped, and a final trailing separator does not produce
an extra empty line. Modelled by structural recursion over the characters;
`acc` is the current line, reversed. -/
def rustLinesAux : List Char → List Char → List String
  | [], acc => if acc.isEmpty then [] else [⟨acc.reverse⟩]
  | c :: rest, acc =>
    if c = '\n' then
      let acc' := match acc with
        | '\r' :: a => a
        | a => a
      (⟨acc'.reverse⟩ : String) :: rustLinesAux rest []
    else
      rustLinesAux rest (c :: acc)

/-- `content.lines()` of Rust, on a Lean `String`. -/
def rustLines (s : String) : List String :=
  rustLinesAux s.data []

/-- The body of the `diff.print` callback (`src/status/diff.rs` lines 48–61):
decode the content bytes with `unwrap_or("")`, then style by origin marker:
`+` green, `-` red, `F` blue, anything else an unstyled raw span. -/
def mapDiffLine (l : RawDiffLine) : StyledLine :=
  let content := l.content.getD ""
  if l.origin = '+' then { content := content, color := some Color.Green }
  else if l.origin = '-' then { content := content, color := some Color.Red }
  else if l.origin = 'F' then { content := content, color := some Color.Blue }
  else { content := content, color := none }

/-- `show_file_diff` (`src/status/diff.rs`): look up the path's status; if it
carries `WT_NEW`, read the working-tree file and emit a blue
`"New file: {path}\n"` header followed by one green `"+{line}\n"` per content
line, returning early; otherwise map the diff engine's line stream through
the styling callback, substituting the single `"No changes"` line when the
stream produced nothing. Every `?` of the source is an explicit early
return of the error. -/
def show_file_diff (env : GitEnv) (path : String) :
    Except String (List StyledLine) :=
  match env.status_file path with
  | Except.error e => Except.error e
  | Except.ok status =>
    if status.wt_new then
      match env.read_workdir path with
      | Except.error e => Except.error e
      | Except.ok content =>
        Except.ok
          ({ content := "New file: " ++ path ++ "\n", color := some Color.Blue } ::
            (rustLines content).map
              (fun l => { content := "+" ++ l ++ "\n", color := some Color.Green }))
    else
      match env.diff_stream path with
      | Except.error e => Except.error e
      | Except.ok raw =>
        let lines := raw.map mapDiffLine
        if lines.isEmpty then
          Except.ok [{ content := "No changes", color := none }]
        else
          Except.ok lines

/-- The caller-side conversion at `src/status.rs` lines 90–91:
`show_file_diff(repo, path).unwrap_or_else(|e| vec![Line::from(format!("Error: {}", e))])`. -/
def renderDiffOrError (env : GitEnv) (path : String) : List StyledLine :=
  match show_file_diff env path with
  | Except.ok l => l
  | Except.error e => [{ content := "Error: " ++ e, color := none }]

/-- Which panel has focus (`enum Focus { Left, Right }`). -/
inductive Focus where
  | Left
  | Right
deriving DecidableEq

/-- Key codes distinguished by the input match (`src/status.rs` lines
179–217); `other` covers every `crossterm` key code the source's wildcard
arm ignores. -/
inductive KeyCode where
  | char (c : Char)
  | esc
  | tab
  | up
  | down
  | enter
  | other
deriving DecidableEq

/-- The mutable UI state of the session loop (`src/status.rs` lines 75–82):
`selected` is `list_state.selected()` (initialised to `Some(0)`),
`diff_scroll` the `u16` scroll offset, `current_diff` the cached rendered
diff, `last_selected` the memoization index. -/
structure SessionState where
  focus : Focus
  diff_scroll : Nat
  current_diff : List StyledLine
  last_selected : Option Nat
  selected : Option Nat
deriving DecidableEq

/-- The state at loop entry (`src/status.rs` lines 75–82). -/
def initialState : SessionState :=
  { focus := Focus.Left
    diff_scroll := 0
    current_diff := []
    last_selected := none
    selected := some 0 }

/-- `u16::MAX`, the saturation bound of the source's `diff_scroll: u16`. -/
def u16max : Nat := 65535

/-- `u16::saturating_add` on the `Nat` model of a `u16` value. -/
def u16SaturatingAdd (a b : Nat) : Nat := min (a + b) u16max

/-- `u16::saturating_sub` on the `Nat` model (Nat subtraction saturates). -/
def u16SaturatingSub (a b : Nat) : Nat := a - b

/-- The diff memoization step run at the top of every loop iteration
(`src/status.rs` lines 86–96): when the selection exists and differs from
`last_selected`, render the diff for `files[selected]` when that index is in
range, and — in range or not — reset the scroll to 0 and record the
selection in `last_selected`. The returned `Bool` records whether
`show_file_diff` was invoked on this iteration. -/
def recomputeDiff (env : GitEnv) (files : List String) (s : SessionState) :
    SessionState × Bool :=
  match s.selected with
  | none => (s, false)
  | some sel =>
    if s.last_selected = some sel then
      (s, false)
    else
      match files[sel]? with
      | some path =>
        ({ s with
            current_diff := renderDiffOrError env path
            diff_scroll := 0
            last_selected := some sel }, true)
      | none =>
        ({ s with diff_scroll := 0, last_selected := some sel }, false)

/-- Result of handling one key event: leave the loop (`break`) or continue
with the updated state. -/
inductive StepResult where
  | quit
  | cont (s : SessionState)
deriving DecidableEq

/-- The input match of the session loop (`src/status.rs` lines 178–217):
`q`/Esc break; Tab toggles focus; Up/`k` move the selection up (floor 0)
when the list has focus and saturating-decrement the diff scroll otherwise;
Down/`j` move the selection down (ceiling `items.len() - 1`) or
saturating-increment the scroll; every other key is ignored. -/
def handleKey (itemsLen : Nat) (k : KeyCode) (s : SessionState) : StepResult :=
  match k with
  | KeyCode.char 'q' => StepResult.quit
  | KeyCode.esc => StepResult.quit
  | KeyCode.tab =>
    StepResult.cont
      { s with focus := if s.focus = Focus.Left then Focus.Right else Focus.Left }
  | KeyCode.up | KeyCode.char 'k' =>
    StepResult.cont
      (match s.focus with
      | Focus.Left =>
        match s.selected with
        | some i => if 0 < i then { s with selected := some (i - 1) } else s
        | none => s
      | Focus.Right =>
        { s with diff_scroll := u16SaturatingSub s.diff_scroll 1 })
  | KeyCode.down | KeyCode.char 'j' =>
    StepResult.cont
      (match s.focus with
      | Focus.Left =>
        match s.selected with
        | some i =>
          if i < itemsLen - 1 then { s with selected := some (i + 1) } else s
        | none => s
      | Focus.Right =>
        { s with diff_scroll := u16SaturatingAdd s.diff_scroll 1 })
  | _ => StepResult.cont s

/-- Terminal-mode actions performed by `status` (`src/status.rs`):
`enable_raw_mode()` and `EnterAlternateScreen` at lines 23–24,
`disable_raw_mode()` and `LeaveAlternateScreen` at lines 221–222. -/
inductive TermAction where
  | enableRaw
  | enterAlt
  | disableRaw
  | leaveAlt
deriving DecidableEq

/-- Outcome of one loop iteration's terminal interaction, scripting the
external terminal: either `terminal.draw(...)` fails with an error, or the
draw succeeds and `event::read()` fails, or both succeed and yield a key
event. (Non-key events read by `event::read()` fall under `key .other`:
the `if let Event::Key` guard makes them no-ops just like unmatched keys.) -/
inductive IterOutcome where
  | drawErr (e : String)
  | readErr (e : String)
  | key (k : KeyCode)
deriving DecidableEq

/-- How a run of the session ends: `ok` is the `Ok(())` return after a
normal `break`, `err e` an error propagated by a `?` inside the loop,
`outOfScript` means the script was exhausted with the loop still running. -/
inductive RunResult where
  | ok
  | err (e : String)
  | outOfScript
deriving DecidableEq

/-- The main loop (`src/status.rs` lines 85–219) driven by a script of
iteration outcomes: each iteration first runs the memoization step, then
draws (a draw failure propagates out through `?`, performing no terminal
restoration), then reads one event (likewise), then handles the key; `break`
leaves the loop, after which lines 221–222 run `disable_raw_mode` and
`LeaveAlternateScreen`. Returns the terminal actions performed from the
loop onward and how the run ended. -/
def runLoop (env : GitEnv) (files : List String) (itemsLen : Nat) :
    List IterOutcome → SessionState → List TermAction × RunResult
  | [], _ => ([], RunResult.outOfScript)
  | o :: rest, s =>
    let s' := (recomputeDiff env files s).1
    match o with
    | IterOutcome.drawErr e => ([], RunResult.err e)
    | IterOutcome.readErr e => ([], RunResult.err e)
    | IterOutcome.key k =>
      match handleKey itemsLen k s' with
      | StepResult.quit => ([TermAction.disableRaw, TermAction.leaveAlt], RunResult.ok)
      | StepResult.cont s'' => runLoop env files itemsLen rest s''

/-- The whole `status` function (`src/status.rs` lines 22–224) after a
successful startup: raw mode and the alternate screen are entered (lines
23–24), the status entries are collected into `files` and `items` (lines
29–76), and the loop runs from `initialState`. The trace lists every
terminal action performed, in order. -/
def statusModel (env : GitEnv) (entries : List StatusEntry)
    (script : List IterOutcome) : List TermAction × RunResult :=
  let files := filesOf entries
  let items := itemsOf entries
  let r := runLoop env files items.length script initialState
  (TermAction.enableRaw :: TermAction.enterAlt :: r.1, r.2)

/-- The all-clear flag set: no status bits set. -/
def noFlags : StatusFlags :=
  { index_new := false, index_modified := false, index_deleted := false
    index_renamed := false, index_typechange := false, wt_new := false
    wt_modified := false, wt_deleted := false, wt_renamed := false
    wt_typechange := false, ignored := false, conflicted := false }

/-- A repository environment every capability of which fails; used to
exercise paths that must not consult the repository. -/
def envStub : GitEnv :=
  { status_file := fun _ => Except.error "stub"
    read_workdir := fun _ => Except.error "stub"
    diff_stream := fun _ => Except.error "stub" }

/-- A two-entry fixture: one untracked and one working-tree-modified file. -/
def esTwo : List StatusEntry :=
  [{ path := some "a.txt", status := { noFlags with wt_new := true } },
   { path := some "b.txt", status := { noFlags with wt_modified := true } }]

/-- A list-panel state with the second entry selected. -/
def sSelOne : SessionState :=
  { focus := Focus.Left, diff_scroll := 0, current_diff := []
    last_selected := none, selected := some 1 }

/-- A status fixture whose only entry is staged-deleted, which the
classifier skips. -/
def esDel : List StatusEntry :=
  [{ path := some "gone.txt", status := { noFlags with index_deleted := true } }]

/-- An environment fixture with one untracked file of content `"x\ny\n"`. -/
def env5 : GitEnv :=
  { status_file := fun _ => Except.ok { noFlags with wt_new := true }
    read_workdir := fun _ => Except.ok "x\ny\n"
    diff_stream := fun _ => Except.error "unused" }

/-- The diff engine's stream for a one-line `foo` → `bar` edit: file
header, hunk header, removal, addition. -/
def raw6 : List RawDiffLine :=
  [{ origin := 'F', content := some "diff --git a/f.txt b/f.txt\n" },
   { origin := 'H', content := some "@@ -1 +1 @@\n" },
   { origin := '-', content := some "foo\n" },
   { origin := '+', content := some "bar\n" }]

/-- An environment fixture for a tracked, working-tree-modified file whose
diff stream is `raw6`. -/
def env6 : GitEnv :=
  { status_file := fun _ => Except.ok { noFlags with wt_modified := true }
    read_workdir := fun _ => Except.error "unused"
    diff_stream := fun _ => Except.ok raw6 }

/-- An environment fixture with an untracked file whose bytes are not valid
UTF-8, so the content read fails. -/
def env10 : GitEnv :=
  { status_file := fun _ => Except.ok { noFlags with wt_new := true }
    read_workdir := fun _ => Except.error "stream did not contain valid UTF-8"
    diff_stream := fun _ => Except.error "unused" }

/-- A helper fact shared by the navigation theorems: when at least one entry
was classified, the left-panel list has exactly as many items as there are
selectable files, so the `items.len()`-based clamp of the source coincides
with the file list's last index. -/
theorem itemsOf_length_eq (es : List StatusEntry) (h : filesOf es ≠ []) :
    (itemsOf es).length = (filesOf es).length := by
  unfold itemsOf filesOf at *
  cases hc : collectEntries es with
  | nil => simp [hc] at h
  | cons a l => simp [hc]

/-- C4: classification of a status entry's flag set is a pure first-match
function: a working-tree-new flag yields `New` (red); otherwise a
working-tree-modified flag yields `Modified` (yellow); otherwise any of
new-in-index, renamed-in-working-tree or modified-in-index yields `Added`
(green); entries matching none of the groups — staged-deleted ones
included — are classified `none`, and every item the collector emits stems
from an entry whose flags were classified (skipped entries are never shown
or selectable). -/
theorem classify_first_match :
    (∀ f : StatusFlags,
      (classify f = some (Label.New, Color.Red) ↔ f.wt_new = true)
      ∧ (classify f = some (Label.Modified, Color.Yellow) ↔
          f.wt_new = false ∧ f.wt_modified = true)
      ∧ (classify f = some (Label.Added, Color.Green) ↔
          f.wt_new = false ∧ f.wt_modified = false ∧
            (f.index_new = true ∨ f.wt_renamed = true ∨ f.index_modified = true))
      ∧ (classify f = none ↔
          f.wt_new = false ∧ f.wt_modified = false ∧ f.index_new = false ∧
            f.wt_renamed = false ∧ f.index_modified = false))
    ∧ (∀ (es : List StatusEntry) (x : String × Label × Color),
        x ∈ collectEntries es →
          ∃ e, e ∈ es ∧ e.path = some x.1 ∧ classify e.status = some x.2) := by
  constructor
  · intro f
    obtain ⟨inew, imod, idel, iren, ityp, wnew, wmod, wdel, wren, wtyp, ign, conf⟩ := f
    cases wnew <;> cases wmod <;> cases inew <;> cases wren <;> cases imod <;>
      simp [classify]
  · intro es x hx
    induction es with
    | nil => simp [collectEntries] at hx
    | cons e rest ih =>
      cases hp : e.path with
      | none =>
        rw [collectEntries, hp] at hx
        obtain ⟨w, hw, hw'⟩ := ih hx
        exact ⟨w, List.mem_cons_of_mem _ hw, hw'⟩
      | some p =>
        rw [collectEntries, hp] at hx
        cases hc : classify e.status with
        | none =>
          rw [hc] at hx
          obtain ⟨w, hw, hw'⟩ := ih hx
          exact ⟨w, List.mem_cons_of_mem _ hw, hw'⟩
        | some lc =>
          rw [hc] at hx
          rcases List.mem_cons.mp hx with heq | hmem
          · exact ⟨e, List.mem_cons_self _ _, by simp [hp, hc, heq]⟩
          · obtain ⟨w, hw, hw'⟩ := ih hmem
            exact ⟨w, List.mem_cons_of_mem _ hw, hw'⟩

/-- Witness for C4: a staged-deleted-only entry is skipped, and the one
item produced from a working-tree-new entry traces back to it. -/
theorem classify_first_match_witness :
    classify { noFlags with index_deleted := true } = none
    ∧ ∃ e, e ∈ [({ path := some "a.txt",
                    status := { noFlags with wt_new := true } } : StatusEntry)]
        ∧ e.path = some "a.txt"
        ∧ classify e.status = some (Label.New, Color.Red) := by
  refine ⟨(classify_first_match.1 _).2.2.2.mpr (by decide), ?_⟩
  exact classify_first_match.2
    [{ path := some "a.txt", status := { noFlags with wt_new := true } }]
    ("a.txt", Label.New, Color.Red) (by decide)

/-- C2: contrary to the specified guarantee, terminal restoration does not
run on every exit path. On a normal quit the trace ends with
`disable_raw_mode`/`LeaveAlternateScreen` exactly once, but when the first
draw after startup fails, the `?` at `terminal.draw(...)` propagates the
error straight out of `status` and the restoration calls of
`src/status.rs` lines 221–222 are never performed: the trace holds the two
enter actions only. -/
theorem status_skips_restore_on_draw_error :
    statusModel envStub [] [IterOutcome.drawErr "io error"] =
      ([TermAction.enableRaw, TermAction.enterAlt], RunResult.err "io error")
    ∧ TermAction.disableRaw ∉
        (statusModel envStub [] [IterOutcome.drawErr "io error"]).1
    ∧ TermAction.leaveAlt ∉
        (statusModel envStub [] [IterOutcome.drawErr "io error"]).1
    ∧ statusModel envStub [] [IterOutcome.key (KeyCode.char 'q')] =
      ([TermAction.enableRaw, TermAction.enterAlt,
        TermAction.disableRaw, TermAction.leaveAlt], RunResult.ok)
    ∧ statusModel envStub [] [IterOutcome.readErr "read fail"] =
      ([TermAction.enableRaw, TermAction.enterAlt], RunResult.err "read fail") := by
  refine ⟨rfl, ?_, ?_, rfl, rfl⟩ <;> decide

/-- C7 counterexample: with focus on the diff panel and the scroll offset at
`u16::MAX`, a down-key press leaves the state — in particular the offset —
unchanged (`saturating_add` clamps), so a down press does not strictly
increase the offset in every state. -/
theorem scroll_down_no_strict_increase_at_u16max :
    (handleKey 1 KeyCode.down
        { focus := Focus.Right, diff_scroll := 65535, current_diff := []
          last_selected := none, selected := some 0 } =
      StepResult.cont
        { focus := Focus.Right, diff_scroll := 65535, current_diff := []
          last_selected := none, selected := some 0 })
    ∧ (65535 : Nat) = u16max := by
  exact ⟨rfl, rfl⟩

/-- C7 (amended): with focus on the diff panel, an up press never
underflows the offset (`Nat`/saturating subtraction, floor 0), and a down
press adds exactly 1 whenever the offset is below `u16::MAX`, saturating at
`u16::MAX` — the offset never wraps and never exceeds `u16max`. -/
theorem scroll_saturating_bounds (n : Nat) (s : SessionState)
    (hf : s.focus = Focus.Right) :
    (handleKey n KeyCode.up s =
      StepResult.cont { s with diff_scroll := s.diff_scroll - 1 })
    ∧ (handleKey n (KeyCode.char 'k') s =
      StepResult.cont { s with diff_scroll := s.diff_scroll - 1 })
    ∧ (handleKey n KeyCode.down s =
      StepResult.cont { s with diff_scroll := min (s.diff_scroll + 1) u16max })
    ∧ (handleKey n (KeyCode.char 'j') s =
      StepResult.cont { s with diff_scroll := min (s.diff_scroll + 1) u16max })
    ∧ (s.diff_scroll - 1 ≤ s.diff_scroll)
    ∧ (s.diff_scroll = 0 → s.diff_scroll - 1 = 0)
    ∧ (s.diff_scroll < u16max →
        min (s.diff_scroll + 1) u16max = s.diff_scroll + 1)
    ∧ (min (s.diff_scroll + 1) u16max ≤ u16max) := by
  refine ⟨?_, ?_, ?_, ?_, Nat.sub_le _ _, ?_, ?_, Nat.min_le_right _ _⟩
  · simp [handleKey, hf, u16SaturatingSub]
  · simp [handleKey, hf, u16SaturatingSub]
  · simp [handleKey, hf, u16SaturatingAdd]
  · simp [handleKey, hf, u16SaturatingAdd]
  · intro h
    simp [h]
  · intro h
    omega

/-- Witness for C7's amended theorem at a concrete diff-panel state with
offset 5. -/
theorem scroll_saturating_bounds_witness :
    (handleKey 1 KeyCode.down
        { focus := Focus.Right, diff_scroll := 5, current_diff := []
          last_selected := none, selected := some 0 } =
      StepResult.cont
        { focus := Focus.Right, diff_scroll := min (5 + 1) u16max
          current_diff := [], last_selected := none, selected := some 0 })
    ∧ (handleKey 1 KeyCode.up
        { focus := Focus.Right, diff_scroll := 5, current_diff := []
          last_selected := none, selected := some 0 } =
      StepResult.cont
        { focus := Focus.Right, diff_scroll := 5 - 1, current_diff := []
          last_selected := none, selected := some 0 }) :=
  ⟨(scroll_saturating_bounds 1
      { focus := Focus.Right, diff_scroll := 5, current_diff := []
        last_selected := none, selected := some 0 } rfl).2.2.1,
   (scroll_saturating_bounds 1
      { focus := Focus.Right, diff_scroll := 5, current_diff := []
        last_selected := none, selected := some 0 } rfl).1⟩

/-- C8: with focus on the list panel and a non-empty file list, up (or `k`)
at index 0 is a no-op and otherwise decrements the selection by exactly 1;
down (or `j`) at the file list's last index is a no-op and otherwise
increments it by exactly 1 (the source clamps with `items.len() - 1`, which
equals the file list's last index since the lists are built in lockstep). -/
theorem list_nav_clamped (es : List StatusEntry) (s : SessionState) (i : Nat)
    (hne : filesOf es ≠ []) (hf : s.focus = Focus.Left)
    (hs : s.selected = some i) (hi : i < (filesOf es).length) :
    (i = 0 →
      handleKey (itemsOf es).length KeyCode.up s = StepResult.cont s
      ∧ handleKey (itemsOf es).length (KeyCode.char 'k') s = StepResult.cont s)
    ∧ (0 < i →
      handleKey (itemsOf es).length KeyCode.up s =
        StepResult.cont { s with selected := some (i - 1) }
      ∧ handleKey (itemsOf es).length (KeyCode.char 'k') s =
        StepResult.cont { s with selected := some (i - 1) })
    ∧ (i = (filesOf es).length - 1 →
      handleKey (itemsOf es).length KeyCode.down s = StepResult.cont s
      ∧ handleKey (itemsOf es).length (KeyCode.char 'j') s = StepResult.cont s)
    ∧ (i < (filesOf es).length - 1 →
      handleKey (itemsOf es).length KeyCode.down s =
        StepResult.cont { s with selected := some (i + 1) }
      ∧ handleKey (itemsOf es).length (KeyCode.char 'j') s =
        StepResult.cont { s with selected := some (i + 1) }) := by
  have hlen : (itemsOf es).length = (filesOf es).length := itemsOf_length_eq es hne
  refine ⟨?_, ?_, ?_, ?_⟩
  · intro h0
    subst h0
    constructor <;> simp [handleKey, hf, hs]
  · intro h0
    constructor <;> simp [handleKey, hf, hs, h0]
  · intro hlast
    have : ¬ i < (itemsOf es).length - 1 := by omega
    constructor <;> simp [handleKey, hf, hs, this]
  · intro hlt
    have : i < (itemsOf es).length - 1 := by omega
    constructor <;> simp [handleKey, hf, hs, this]

/-- Witness for C8 on a two-file list at its last index: down is a no-op
and up steps back by exactly one. -/
theorem list_nav_clamped_witness :
    handleKey (itemsOf esTwo).length KeyCode.down sSelOne = StepResult.cont sSelOne
    ∧ handleKey (itemsOf esTwo).length KeyCode.up sSelOne =
        StepResult.cont { sSelOne with selected := some (1 - 1) } := by
  have h := list_nav_clamped esTwo sSelOne 1 (by decide) rfl rfl (by decide)
  exact ⟨(h.2.2.1 (by decide)).1, (h.2.1 (by decide)).1⟩

/-- C9: when no entry is classified, the collector yields no selectable
file, the list holds exactly the synthetic clean placeholder, every
navigation key on the placeholder is a no-op, and the memoization step never
invokes the diff renderer (the lookup `files.get(selected)` is `None` on the
empty file list, so no diff computation can be attempted and the cached diff
is left untouched). -/
theorem clean_placeholder_guards (env : GitEnv) (es : List StatusEntry)
    (h : ∀ e ∈ es, e.path = none ∨ classify e.status = none) :
    collectEntries es = []
    ∧ filesOf es = []
    ∧ itemsOf es = [Item.clean]
    ∧ (∀ s : SessionState, s.focus = Focus.Left → s.selected = some 0 →
        handleKey (itemsOf es).length KeyCode.up s = StepResult.cont s
        ∧ handleKey (itemsOf es).length (KeyCode.char 'k') s = StepResult.cont s
        ∧ handleKey (itemsOf es).length KeyCode.down s = StepResult.cont s
        ∧ handleKey (itemsOf es).length (KeyCode.char 'j') s = StepResult.cont s)
    ∧ (∀ s : SessionState,
        (recomputeDiff env (filesOf es) s).2 = false
        ∧ (recomputeDiff env (filesOf es) s).1.current_diff = s.current_diff) := by
  have hcol : collectEntries es = [] := by
    induction es with
    | nil => rfl
    | cons e rest ih =>
      have he := h e (List.mem_cons_self _ _)
      have hrest := ih fun e' h' => h e' (List.mem_cons_of_mem _ h')
      cases hp : e.path with
      | none => rw [collectEntries, hp]; exact hrest
      | some p =>
        rcases he with hpn | hc
        · rw [hp] at hpn; exact absurd hpn (by simp)
        · rw [collectEntries, hp, hc]; exact hrest
  have hfiles : filesOf es = [] := by simp [filesOf, hcol]
  have hitems : itemsOf es = [Item.clean] := by simp [itemsOf, hcol]
  refine ⟨hcol, hfiles, hitems, ?_, ?_⟩
  · intro s hf hs
    rw [hitems]
    refine ⟨?_, ?_, ?_, ?_⟩ <;> simp [handleKey, hf, hs]
  · intro s
    rw [hfiles]
    cases hs : s.selected with
    | none => simp [recomputeDiff, hs]
    | some sel =>
      by_cases hl : s.last_selected = some sel
      · simp [recomputeDiff, hs, hl]
      · simp [recomputeDiff, hs, hl]

/-- Witness for C9 on a repository whose only change is a staged deletion. -/
theorem clean_placeholder_guards_witness :
    filesOf esDel = [] ∧ itemsOf esDel = [Item.clean]
    ∧ (recomputeDiff envStub (filesOf esDel) initialState).2 = false := by
  have h := clean_placeholder_guards envStub esDel (by decide)
  exact ⟨h.2.1, h.2.2.1, (h.2.2.2.2 initialState).1⟩

/-- C1: the memoization step of the session loop invokes the diff renderer
exactly when the current selection exists, differs from the last computed
index, and addresses a file of the list; on such a recompute the cached diff
becomes the rendered diff of the selected path, the scroll offset is reset
to 0, and the last computed index becomes the selection — and immediately
re-running the step on the resulting state never computes a second time. -/
theorem diff_recompute_iff_selection_changed (env : GitEnv)
    (files : List String) (s : SessionState) :
    ((recomputeDiff env files s).2 = true ↔
      ∃ sel, s.selected = some sel ∧ s.last_selected ≠ some sel
        ∧ sel < files.length)
    ∧ (∀ sel path, s.selected = some sel → s.last_selected ≠ some sel →
        files[sel]? = some path →
        (recomputeDiff env files s).1 =
          { s with
              current_diff := renderDiffOrError env path
              diff_scroll := 0
              last_selected := some sel })
    ∧ (recomputeDiff env files (recomputeDiff env files s).1).2 = false := by
  refine ⟨?_, ?_, ?_⟩
  · cases hs : s.selected with
    | none =>
      have hval : recomputeDiff env files s = (s, false) := by
        simp [recomputeDiff, hs]
      rw [hval]
      simp [hs]
    | some sel =>
      by_cases hl : s.last_selected = some sel
      · have hval : recomputeDiff env files s = (s, false) := by
          simp [recomputeDiff, hs, hl]
        rw [hval]
        constructor
        · intro hfalse; exact absurd hfalse (by simp)
        · rintro ⟨sel', hsel', hne', _⟩
          injection hsel' with he
          subst he
          exact absurd hl hne'
      · cases hg : files[sel]? with
        | some path =>
          have hlt : sel < files.length := by
            rcases List.getElem?_eq_some.mp hg with ⟨hlt, _⟩
            exact hlt
          have hval : (recomputeDiff env files s).2 = true := by
            simp [recomputeDiff, hs, hl, hg]
          rw [hval]
          constructor
          · intro _
            exact ⟨sel, rfl, fun hc => hl hc, hlt⟩
          · intro _; rfl
        | none =>
          have hge : files.length ≤ sel := List.getElem?_eq_none_iff.mp hg
          have hval : (recomputeDiff env files s).2 = false := by
            simp [recomputeDiff, hs, hl, hg]
          rw [hval]
          constructor
          · intro hfalse; exact absurd hfalse (by simp)
          · rintro ⟨sel', hsel', _, hlt⟩
            injection hsel' with he
            subst he
            omega
  · intro sel path hsel hlast hget
    simp [recomputeDiff, hsel, hlast, hget]
  · cases hs : s.selected with
    | none => simp [recomputeDiff, hs]
    | some sel =>
      by_cases hl : s.last_selected = some sel
      · simp [recomputeDiff, hs, hl]
      · cases hg : files[sel]? with
        | some path => simp [recomputeDiff, hs, hl, hg]
        | none => simp [recomputeDiff, hs, hl, hg]

/-- Witness for C1 on a one-file list starting from the initial state:
the first iteration computes (the selection 0 was never computed), produces
the memoized state, and the next iteration does not compute again. -/
theorem diff_recompute_iff_selection_changed_witness :
    (recomputeDiff envStub ["a.txt"] initialState).2 = true
    ∧ (recomputeDiff envStub ["a.txt"] initialState).1 =
        { initialState with
            current_diff := renderDiffOrError envStub "a.txt"
            diff_scroll := 0
            last_selected := some 0 }
    ∧ (recomputeDiff envStub ["a.txt"]
        (recomputeDiff envStub ["a.txt"] initialState).1).2 = false :=
  ⟨(diff_recompute_iff_selection_changed envStub ["a.txt"] initialState).1.mpr
      ⟨0, rfl, by decide, by decide⟩,
   (diff_recompute_iff_selection_changed envStub ["a.txt"] initialState).2.1
      0 "a.txt" rfl (by decide) rfl,
   (diff_recompute_iff_selection_changed envStub ["a.txt"] initialState).2.2⟩

/-- C3: the diff lookup of the session loop is total: an internal error `e`
of `show_file_diff` is converted by the caller into the single diagnostic
line `"Error: e"` shown in place of the diff, a successful render is passed
through unchanged, and the memoization step never disturbs the selection or
the focus, so the list stays fully usable whatever the renderer did. -/
theorem render_diff_never_fails (env : GitEnv) (path : String) :
    (∀ e, show_file_diff env path = Except.error e →
      renderDiffOrError env path = [{ content := "Error: " ++ e, color := none }])
    ∧ (∀ l, show_file_diff env path = Except.ok l →
      renderDiffOrError env path = l)
    ∧ (∀ (files : List String) (s : SessionState),
        (recomputeDiff env files s).1.selected = s.selected
        ∧ (recomputeDiff env files s).1.focus = s.focus) := by
  refine ⟨?_, ?_, ?_⟩
  · intro e he; simp [renderDiffOrError, he]
  · intro l hl; simp [renderDiffOrError, hl]
  · intro files s
    cases hs : s.selected with
    | none => simp [recomputeDiff, hs]
    | some sel =>
      by_cases hl : s.last_selected = some sel
      · simp [recomputeDiff, hs, hl]
      · cases hg : files[sel]? with
        | some path' => simp [recomputeDiff, hs, hl, hg]
        | none => simp [recomputeDiff, hs, hl, hg]

/-- Witness for C3: on an environment whose status lookup fails with
`"stub"`, the caller sees the single diagnostic line. -/
theorem render_diff_never_fails_witness :
    renderDiffOrError envStub "a.txt" =
      [{ content := "Error: stub", color := none }] := by
  have h := (render_diff_never_fails envStub "a.txt").1 "stub" rfl
  exact h.trans (by decide)

/-- C5: for a path whose status carries the untracked (working-tree-new)
flag and whose content can be read, `show_file_diff` emits exactly one blue
header line `"New file: {path}\n"` followed by one green added line per line
of the working-tree content, in file order, each prefixed with `+`. -/
theorem untracked_new_file_dump (env : GitEnv) (path : String)
    (st : StatusFlags) (content : String)
    (hst : env.status_file path = Except.ok st) (hwt : st.wt_new = true)
    (hrd : env.read_workdir path = Except.ok content) :
    show_file_diff env path =
      Except.ok
        ({ content := "New file: " ++ path ++ "\n", color := some Color.Blue } ::
          (rustLines content).map
            (fun l => { content := "+" ++ l ++ "\n", color := some Color.Green })) := by
  simp [show_file_diff, hst, hwt, hrd]

/-- Witness for C5: the two-line untracked file `a.txt` yields the header
and two `+`-prefixed green lines, in file order. -/
theorem untracked_new_file_dump_witness :
    show_file_diff env5 "a.txt" =
      Except.ok
        [{ content := "New file: a.txt\n", color := some Color.Blue },
         { content := "+x\n", color := some Color.Green },
         { content := "+y\n", color := some Color.Green }] := by
  have h := untracked_new_file_dump env5 "a.txt"
    { noFlags with wt_new := true } "x\ny\n" rfl rfl rfl
  exact h.trans (congrArg Except.ok (by decide))

/-- C6: in the non-untracked path, every line the diff engine emitted is
mapped by origin marker — `+` to the added (green) role, `-` to the removed
(red) role, the file-header marker `F` to the header (blue) role, anything
else to a plain unstyled line — and the output is exactly the engine's
stream mapped in order, with no re-sorting and no deduplication. -/
theorem diff_stream_mapped_in_order (env : GitEnv) (path : String)
    (st : StatusFlags) (raw : List RawDiffLine)
    (hst : env.status_file path = Except.ok st) (hwt : st.wt_new = false)
    (hdf : env.diff_stream path = Except.ok raw) (hne : raw ≠ []) :
    show_file_diff env path = Except.ok (raw.map mapDiffLine)
    ∧ (∀ t, mapDiffLine { origin := '+', content := t } =
        { content := t.getD "", color := some Color.Green })
    ∧ (∀ t, mapDiffLine { origin := '-', content := t } =
        { content := t.getD "", color := some Color.Red })
    ∧ (∀ t, mapDiffLine { origin := 'F', content := t } =
        { content := t.getD "", color := some Color.Blue })
    ∧ (∀ o t, o ≠ '+' → o ≠ '-' → o ≠ 'F' →
        mapDiffLine { origin := o, content := t } =
          { content := t.getD "", color := none }) := by
  refine ⟨?_, ?_, ?_, ?_, ?_⟩
  · have hmap : (raw.map mapDiffLine).isEmpty = false := by
      cases raw with
      | nil => exact absurd rfl hne
      | cons a l => rfl
    simp [show_file_diff, hst, hwt, hdf, hmap]
  · intro t; rfl
  · intro t; rfl
  · intro t; rfl
  · intro o t h1 h2 h3
    simp [mapDiffLine, h1, h2, h3]

/-- Witness for C6: the `foo` → `bar` stream renders as blue header, plain
hunk line, red `foo` removal, green `bar` addition — the engine's order. -/
theorem diff_stream_mapped_in_order_witness :
    show_file_diff env6 "f.txt" =
      Except.ok
        [{ content := "diff --git a/f.txt b/f.txt\n", color := some Color.Blue },
         { content := "@@ -1 +1 @@\n", color := none },
         { content := "foo\n", color := some Color.Red },
         { content := "bar\n", color := some Color.Green }] := by
  have h := (diff_stream_mapped_in_order env6 "f.txt"
    { noFlags with wt_modified := true } raw6 rfl rfl rfl (by decide)).1
  exact h.trans (congrArg Except.ok (by decide))

/-- C10: a diff-stream line whose content bytes are not valid UTF-8 is
rendered as an empty-text line styled by its origin marker (the source's
`from_utf8(...).unwrap_or("")`), never as a failure — whereas non-UTF8
content of an untracked file makes `fs::read_to_string` fail, which
propagates out of `show_file_diff` as the content-read error. -/
theorem non_utf8_line_empty_text :
    mapDiffLine { origin := '+', content := none } =
      { content := "", color := some Color.Green }
    ∧ mapDiffLine { origin := '-', content := none } =
      { content := "", color := some Color.Red }
    ∧ mapDiffLine { origin := 'F', content := none } =
      { content := "", color := some Color.Blue }
    ∧ (∀ o, o ≠ '+' → o ≠ '-' → o ≠ 'F' →
        mapDiffLine { origin := o, content := none } =
          { content := "", color := none })
    ∧ (∀ (env : GitEnv) (path : String) (st : StatusFlags) (e : String),
        env.status_file path = Except.ok st → st.wt_new = true →
        env.read_workdir path = Except.error e →
        show_file_diff env path = Except.error e) := by
  refine ⟨rfl, rfl, rfl, ?_, ?_⟩
  · intro o h1 h2 h3
    simp [mapDiffLine, h1, h2, h3]
  · intro env path st e hst hwt hrd
    simp [show_file_diff, hst, hwt, hrd]

/-- Witness for C10: a hunk-header line with undecodable bytes renders as
an empty plain line, and the undecodable untracked file surfaces the read
error. -/
theorem non_utf8_line_empty_text_witness :
    mapDiffLine { origin := 'H', content := none } =
      { content := "", color := none }
    ∧ show_file_diff env10 "b.bin" =
      Except.error "stream did not contain valid UTF-8" :=
  ⟨non_utf8_line_empty_text.2.2.2.1 'H' (by decide) (by decide) (by decide),
   non_utf8_line_empty_text.2.2.2.2 env10 "b.bin"
     { noFlags with wt_new := true } _ rfl rfl rfl⟩

end HelperGit

